import Mathlib

/-
Verification development for the EXRuster tools repository.

Part 1 embeds the metadata-only EXR header reader from src/fast_exr.rs:
the cursor (a byte buffer plus a position), its primitive reads, the
attribute-stream loop of `parse_metadata`, and the channel-list
sub-parser `parse_channels`.

Modelling conventions:
- Bytes are `Nat` values (the buffers produced by the program always hold
  values below 256, but none of the embedded code depends on that bound).
- Rust strings are modelled as their raw byte lists.  The program decodes
  bytes with `String::from_utf8_lossy`; a lossily decoded name equals one
  of the recognized ASCII attribute names exactly when the raw bytes equal
  the ASCII bytes of that name (ASCII decodes to itself and the
  replacement character is never part of an ASCII name), so dispatching on
  the raw bytes is faithful.
- `f32::from_bits` keeps the raw bits: the program never computes with the
  float, so `pixel_aspect` stores the `u32` bit pattern.
- Fallible operations take the cursor state and return a result paired
  with the updated state, mirroring `&mut self` methods returning
  `Result`: on an error the state that is returned is exactly the state
  at the moment the failing check ran.
- The Rust `while` loops carry no fuel; here they recurse on a fuel
  argument chosen at the call site to exceed the largest possible number
  of iterations (each attribute iteration consumes at least 7 bytes and
  each channel iteration at least 18 bytes, so `length + 1` and
  `size + 1` are strict upper bounds).  The `fuelOut` error is an
  artifact of the embedding and is unreachable at those call sites.
-/

/-- Errors of the parser.  The source uses `Box<dyn Error>` with fixed
message strings; each message is mapped to one constructor:
"Invalid EXR magic number", "Unexpected end of data", and
"Unknown sample type: v". -/
inductive ExrError where
  | invalidMagic : ExrError
  | endOfData : ExrError
  | unknownSampleType (value : Nat) : ExrError
  | fuelOut : ExrError
deriving DecidableEq, Repr

/-- `enum SampleType { UInt, Half, Float }`. -/
inductive SampleType where
  | UInt : SampleType
  | Half : SampleType
  | Float : SampleType
deriving DecidableEq, Repr

/-- `SampleType::from_u32`. -/
def SampleType.fromU32 (value : Nat) : Except ExrError SampleType :=
  match value with
  | 0 => .ok .UInt
  | 1 => .ok .Half
  | 2 => .ok .Float
  | _ => .error (.unknownSampleType value)

/-- `struct ChannelInfo` (the sampling pair holds the two decoded `i32`
values as mathematical integers). -/
structure ChannelInfo where
  name : List Nat
  sample_type : SampleType
  sampling : Int × Int
  quantize_linearly : Bool
deriving DecidableEq, Repr

/-- `struct FastEXRMetadata`.  `pixel_aspect` stores the raw `f32` bits;
`custom_attributes` is the `HashMap` as an association list. -/
structure FastEXRMetadata where
  channels : List ChannelInfo
  display_window : Int × Int × Int × Int
  pixel_aspect : Nat
  compression : String
  line_order : String
  layer_name : Option (List Nat)
  custom_attributes : List (List Nat × List Nat)
deriving DecidableEq, Repr

/-- `struct FastEXRParser { data, position }`, the cursor state. -/
structure FastEXRParser where
  data : List Nat
  position : Nat
deriving DecidableEq, Repr

/-- `fn read_u8`: fail when `position >= data.len()`, otherwise return
the byte at `position` and advance by one. -/
def read_u8 (s : FastEXRParser) : Except ExrError Nat × FastEXRParser :=
  if s.data.length ≤ s.position then
    (.error .endOfData, s)
  else
    (.ok (s.data.getD s.position 0), { s with position := s.position + 1 })

/-- `fn read_u32`: fail when `position + 4 > data.len()`, otherwise
assemble the little-endian value of the next four bytes and advance by
four.  The bounds check guarantees the four indexed bytes exist, so the
default of `getD` is never used. -/
def read_u32 (s : FastEXRParser) : Except ExrError Nat × FastEXRParser :=
  if s.data.length < s.position + 4 then
    (.error .endOfData, s)
  else
    (.ok (s.data.getD s.position 0
            + 256 * s.data.getD (s.position + 1) 0
            + 65536 * s.data.getD (s.position + 2) 0
            + 16777216 * s.data.getD (s.position + 3) 0),
     { s with position := s.position + 4 })

/-- Reinterpret a `u32` value as a two's-complement `i32` (the cast
`as i32` in `read_i32`). -/
def toI32 (v : Nat) : Int :=
  if v < 2147483648 then (v : Int) else (v : Int) - 4294967296

/-- `fn read_i32`: `read_u32` followed by the `as i32` cast. -/
def read_i32 (s : FastEXRParser) : Except ExrError Int × FastEXRParser :=
  match read_u32 s with
  | (.ok v, s') => (.ok (toI32 v), s')
  | (.error e, s') => (.error e, s')

/-- `fn read_f32`: `f32::from_bits(read_u32()?)`, modelled as the raw
bit pattern. -/
def read_f32 (s : FastEXRParser) : Except ExrError Nat × FastEXRParser :=
  read_u32 s

/-- The loop of `read_null_terminated_string`, iterating over the bytes
that remain at the cursor (`data.drop position`): collect bytes until a
zero byte (consumed, not collected) or the end of the buffer, tracking
the absolute position. -/
def readNullGo : List Nat → Nat → List Nat → List Nat × Nat
  | [], pos, acc => (acc, pos)
  | b :: rest, pos, acc =>
    if b = 0 then (acc, pos + 1) else readNullGo rest (pos + 1) (acc ++ [b])

/-- `fn read_null_terminated_string`: never fails; returns the collected
bytes (the lossy UTF-8 decoding of the source is kept as raw bytes). -/
def read_null_terminated_string (s : FastEXRParser) : List Nat × FastEXRParser :=
  let r := readNullGo (s.data.drop s.position) s.position []
  (r.1, { s with position := r.2 })

/-- `fn read_fixed_string`: fail when `position + size > data.len()`,
otherwise return the next `size` bytes and advance by `size`. -/
def read_fixed_string (s : FastEXRParser) (size : Nat) :
    Except ExrError (List Nat) × FastEXRParser :=
  if s.data.length < s.position + size then
    (.error .endOfData, s)
  else
    (.ok ((s.data.drop s.position).take size), { s with position := s.position + size })

/-- `fn skip`: fail when `position + count > data.len()`, otherwise
advance by `count`. -/
def skip (s : FastEXRParser) (count : Nat) : Except ExrError Unit × FastEXRParser :=
  if s.data.length < s.position + count then
    (.error .endOfData, s)
  else
    (.ok (), { s with position := s.position + count })

/-- The compression-code table of `read_compression`. -/
def compressionName (comp : Nat) : String :=
  match comp with
  | 0 => "None"
  | 1 => "RLE"
  | 2 => "ZIPS"
  | 3 => "ZIP"
  | 4 => "PIZ"
  | 5 => "PXR24"
  | 6 => "B44"
  | 7 => "B44A"
  | 8 => "DWAA"
  | 9 => "DWAB"
  | _ => "Unknown(" ++ toString comp ++ ")"

/-- `fn read_compression`: when `size >= 1` read one byte, skip the rest
of the declared size, and map the byte through the table; otherwise
return "Unknown" without reading. -/
def read_compression (s : FastEXRParser) (size : Nat) :
    Except ExrError String × FastEXRParser :=
  if 1 ≤ size then
    match read_u8 s with
    | (.error e, s') => (.error e, s')
    | (.ok comp, s1) =>
      match skip s1 (size - 1) with
      | (.error e, s') => (.error e, s')
      | (.ok _, s2) => (.ok (compressionName comp), s2)
  else (.ok "Unknown", s)

/-- The line-order table of `read_line_order`. -/
def lineOrderName (order : Nat) : String :=
  match order with
  | 0 => "Increasing"
  | 1 => "Decreasing"
  | 2 => "Random"
  | _ => "Unknown(" ++ toString order ++ ")"

/-- `fn read_line_order`: when `size >= 1` read one byte, skip the rest,
and map it through the table; otherwise return "Increasing". -/
def read_line_order (s : FastEXRParser) (size : Nat) :
    Except ExrError String × FastEXRParser :=
  if 1 ≤ size then
    match read_u8 s with
    | (.error e, s') => (.error e, s')
    | (.ok order, s1) =>
      match skip s1 (size - 1) with
      | (.error e, s') => (.error e, s')
      | (.ok _, s2) => (.ok (lineOrderName order), s2)
  else (.ok "Increasing", s)

/-- Bytes of the attribute name "channels". -/
def channelsStr : List Nat := [99, 104, 97, 110, 110, 101, 108, 115]

/-- Bytes of the attribute name "displayWindow". -/
def displayWindowStr : List Nat := [100, 105, 115, 112, 108, 97, 121, 87, 105, 110, 100, 111, 119]

/-- Bytes of the attribute name "pixelAspectRatio". -/
def pixelAspectRatioStr : List Nat := [112, 105, 120, 101, 108, 65, 115, 112, 101, 99, 116, 82, 97, 116, 105, 111]

/-- Bytes of the attribute name "compression". -/
def compressionStr : List Nat := [99, 111, 109, 112, 114, 101, 115, 115, 105, 111, 110]

/-- Bytes of the attribute name "lineOrder". -/
def lineOrderStr : List Nat := [108, 105, 110, 101, 79, 114, 100, 101, 114]

/-- Bytes of the attribute name "name". -/
def nameStr : List Nat := [110, 97, 109, 101]

/-- The check `c.is_ascii_graphic() || c.is_ascii_whitespace()` on a
lossily decoded string holds exactly when every raw byte is ASCII
graphic (0x21-0x7E) or one of the five ASCII whitespace bytes: an ASCII
byte decodes to itself, and any non-ASCII byte decodes to a character
(possibly the replacement character) that is neither. -/
def printableByte (b : Nat) : Bool :=
  (33 ≤ b && b ≤ 126) || b = 32 || b = 9 || b = 10 || b = 12 || b = 13

/-- `HashMap::insert` on the association list modelling
`custom_attributes`: replace the value of an existing key, otherwise
append. -/
def insertAttr (m : List (List Nat × List Nat)) (k v : List Nat) :
    List (List Nat × List Nat) :=
  match m with
  | [] => [(k, v)]
  | (k', v') :: rest =>
    if k' = k then (k, v) :: rest else (k', v') :: insertAttr rest k v

/-- The metadata value initialized at the top of `parse_metadata`
(1065353216 is the bit pattern of `1.0f32`). -/
def initMetadata : FastEXRMetadata :=
  { channels := []
  , display_window := (0, 0, 0, 0)
  , pixel_aspect := 1065353216
  , compression := "Unknown"
  , line_order := "Increasing"
  , layer_name := none
  , custom_attributes := [] }

/-- The `while self.position < start_pos + size` loop of
`parse_channels`.  `fuel` bounds the number of iterations; every
iteration that does not stop consumes at least 18 bytes of the span, so
the `size + 1` supplied by `parse_channels` can never run out. -/
def parseChanLoop (fuel startPos size : Nat) (s : FastEXRParser)
    (acc : List ChannelInfo) : Except ExrError (List ChannelInfo) × FastEXRParser :=
  match fuel with
  | 0 => (.error .fuelOut, s)
  | fuel + 1 =>
    if s.position < startPos + size then
      let r := read_null_terminated_string s
      let nm := r.1
      let s1 := r.2
      if nm = [] then (.ok acc, s1)
      else
        match read_u32 s1 with
        | (.error e, s') => (.error e, s')
        | (.ok pixel_type, s2) =>
          match read_u8 s2 with
          | (.error e, s') => (.error e, s')
          | (.ok p_linear, s3) =>
            match skip s3 3 with
            | (.error e, s') => (.error e, s')
            | (.ok _, s4) =>
              match read_i32 s4 with
              | (.error e, s') => (.error e, s')
              | (.ok x_sampling, s5) =>
                match read_i32 s5 with
                | (.error e, s') => (.error e, s')
                | (.ok y_sampling, s6) =>
                  match SampleType.fromU32 pixel_type with
                  | .error e => (.error e, s6)
                  | .ok st =>
                    parseChanLoop fuel startPos size s6
                      (acc ++ [{ name := nm
                               , sample_type := st
                               , sampling := (x_sampling, y_sampling)
                               , quantize_linearly := p_linear != 0 }])
    else (.ok acc, s)

/-- `fn parse_channels`. -/
def parse_channels (s : FastEXRParser) (size : Nat) :
    Except ExrError (List ChannelInfo) × FastEXRParser :=
  parseChanLoop (size + 1) s.position size s []

/-- Outcome of one iteration of the attribute loop in `parse_metadata`:
continue with updated metadata and cursor, stop because the empty
attribute name was read, or fail. -/
inductive AttrStep where
  | cont (m : FastEXRMetadata) (s : FastEXRParser) : AttrStep
  | done (m : FastEXRMetadata) (s : FastEXRParser) : AttrStep
  | fail (e : ExrError) (s : FastEXRParser) : AttrStep
deriving DecidableEq, Repr

/-- The cursor position carried by a `cont` step. -/
def contPos : AttrStep → Option Nat
  | .cont _ s => some s.position
  | _ => none

/-- One iteration of the attribute loop of `parse_metadata`: read the
attribute name, the type tag (discarded), the declared size, then
dispatch on the name exactly as the `match attr_name.as_str()` in the
source. -/
def parseAttrStep (s : FastEXRParser) (m : FastEXRMetadata) : AttrStep :=
  let rn := read_null_terminated_string s
  let attr_name := rn.1
  let s1 := rn.2
  if attr_name = [] then .done m s1
  else
    let rt := read_null_terminated_string s1
    let s2 := rt.2
    match read_u32 s2 with
    | (.error e, s') => .fail e s'
    | (.ok attr_size, s3) =>
      if attr_name = channelsStr then
        match parse_channels s3 attr_size with
        | (.ok chs, s4) => .cont { m with channels := chs } s4
        | (.error e, s4) => .fail e s4
      else if attr_name = displayWindowStr then
        if 16 ≤ attr_size then
          match read_i32 s3 with
          | (.error e, s') => .fail e s'
          | (.ok a, s4) =>
            match read_i32 s4 with
            | (.error e, s') => .fail e s'
            | (.ok b, s5) =>
              match read_i32 s5 with
              | (.error e, s') => .fail e s'
              | (.ok c, s6) =>
                match read_i32 s6 with
                | (.error e, s') => .fail e s'
                | (.ok d, s7) => .cont { m with display_window := (a, b, c, d) } s7
        else
          match skip s3 attr_size with
          | (.error e, s') => .fail e s'
          | (.ok _, s4) => .cont m s4
      else if attr_name = pixelAspectRatioStr then
        if 4 ≤ attr_size then
          match read_f32 s3 with
          | (.error e, s') => .fail e s'
          | (.ok bits, s4) => .cont { m with pixel_aspect := bits } s4
        else
          match skip s3 attr_size with
          | (.error e, s') => .fail e s'
          | (.ok _, s4) => .cont m s4
      else if attr_name = compressionStr then
        match read_compression s3 attr_size with
        | (.error e, s') => .fail e s'
        | (.ok c, s4) => .cont { m with compression := c } s4
      else if attr_name = lineOrderStr then
        match read_line_order s3 attr_size with
        | (.error e, s') => .fail e s'
        | (.ok o, s4) => .cont { m with line_order := o } s4
      else if attr_name = nameStr then
        if 0 < attr_size then
          match read_fixed_string s3 attr_size with
          | (.error e, s') => .fail e s'
          | (.ok v, s4) => .cont { m with layer_name := some v } s4
        else
          match skip s3 attr_size with
          | (.error e, s') => .fail e s'
          | (.ok _, s4) => .cont m s4
      else
        if 0 < attr_size ∧ attr_size ≤ 64 then
          match read_fixed_string s3 attr_size with
          | (.ok v, s4) =>
            if v.all printableByte then
              .cont { m with custom_attributes := insertAttr m.custom_attributes attr_name v } s4
            else .cont m s4
          | (.error _, s4) =>
            match skip { s4 with position := s3.position } attr_size with
            | (.error e, s') => .fail e s'
            | (.ok _, s5) => .cont m s5
        else
          match skip s3 attr_size with
          | (.error e, s') => .fail e s'
          | (.ok _, s4) => .cont m s4

/-- The `while self.position < self.data.len()` attribute loop of
`parse_metadata`.  Every iteration that continues consumes at least 7
bytes, so the fuel `data.length + 1` supplied by `parse_metadata` can
never run out. -/
def parseAttrLoop (fuel : Nat) (s : FastEXRParser) (m : FastEXRMetadata) :
    Except ExrError FastEXRMetadata × FastEXRParser :=
  match fuel with
  | 0 => (.error .fuelOut, s)
  | fuel + 1 =>
    if s.position < s.data.length then
      match parseAttrStep s m with
      | .cont m' s' => parseAttrLoop fuel s' m'
      | .done m' s' => (.ok m', s')
      | .fail e s' => (.error e, s')
    else (.ok m, s)

/-- `fn parse_metadata`: check the magic number, read the version word
(its flag bits are extracted in the source but unused), then run the
attribute loop starting from the default metadata. -/
def parse_metadata (s : FastEXRParser) : Except ExrError FastEXRMetadata × FastEXRParser :=
  match read_u32 s with
  | (.error e, s') => (.error e, s')
  | (.ok magic, s1) =>
    if magic ≠ 20000630 then (.error .invalidMagic, s1)
    else
      match read_u32 s1 with
      | (.error e, s') => (.error e, s')
      | (.ok _version, s2) => parseAttrLoop (s2.data.length + 1) s2 initMetadata

/-- The four little-endian bytes of a `u32` value. -/
def toLE4 (v : Nat) : List Nat :=
  [v % 256, v / 256 % 256, v / 65536 % 256, v / 16777216 % 256]

/-- The fields of one on-disk channel record, used to build channel
payloads in the theorems below. -/
structure ChanEnc where
  name : List Nat
  ptype : Nat
  plin : Nat
  r1 : Nat
  r2 : Nat
  r3 : Nat
  xs : Nat
  ys : Nat
deriving DecidableEq, Repr

/-- On-disk encoding of one channel record: NUL-terminated name, the
pixel-type `u32`, the linear-quantization byte, three reserved bytes and
the two sampling `i32` values. -/
def encodeChan (c : ChanEnc) : List Nat :=
  c.name ++ 0 :: (toLE4 c.ptype ++ c.plin :: c.r1 :: c.r2 :: c.r3 ::
    (toLE4 c.xs ++ toLE4 c.ys))

/-- Concatenated encoding of a list of channel records. -/
def encodeChans (l : List ChanEnc) : List Nat :=
  (l.map encodeChan).flatten

/-- Interpretation of an in-range pixel-type code. -/
def sampleTypeOfNat (v : Nat) : SampleType :=
  if v = 0 then .UInt else if v = 1 then .Half else .Float

/-- The `ChannelInfo` that `parse_channels` builds from a record. -/
def chanInfoOf (c : ChanEnc) : ChannelInfo :=
  { name := c.name
  , sample_type := sampleTypeOfNat c.ptype
  , sampling := (toI32 c.xs, toI32 c.ys)
  , quantize_linearly := c.plin != 0 }

/-- Well-formedness of a channel record: nonempty NUL-free name, a
recognized pixel type and `u32`-ranged sampling values. -/
def wfChan (c : ChanEnc) : Prop :=
  c.name ≠ [] ∧ 0 ∉ c.name ∧ c.ptype < 3 ∧ c.xs < 4294967296 ∧ c.ys < 4294967296

instance (c : ChanEnc) : Decidable (wfChan c) := by
  unfold wfChan; infer_instance

/-- A complete EXR header whose first attribute is a `channels`
attribute with the given payload: magic, version, NUL-terminated
attribute name and type tag, the declared size, the payload, and
whatever follows. -/
def mkChannelsFile (typeB payload tail : List Nat) (ver : Nat) : List Nat :=
  toLE4 20000630 ++ toLE4 ver ++ channelsStr ++ 0 ::
    (typeB ++ 0 :: (toLE4 payload.length ++ payload ++ tail))

/-- The seven cursor operations of the source, enumerated. -/
inductive CursorOp where
  | u8 : CursorOp
  | u32 : CursorOp
  | i32 : CursorOp
  | f32 : CursorOp
  | fixedStr (n : Nat) : CursorOp
  | nullTerm : CursorOp
  | skipN (n : Nat) : CursorOp
deriving DecidableEq, Repr

/-- Run a cursor operation, discarding the value it returns. -/
def runCursorOp : CursorOp → FastEXRParser → Except ExrError Unit × FastEXRParser
  | .u8, s => let r := read_u8 s; (r.1.map fun _ => (), r.2)
  | .u32, s => let r := read_u32 s; (r.1.map fun _ => (), r.2)
  | .i32, s => let r := read_i32 s; (r.1.map fun _ => (), r.2)
  | .f32, s => let r := read_f32 s; (r.1.map fun _ => (), r.2)
  | .fixedStr n, s => let r := read_fixed_string s n; (r.1.map fun _ => (), r.2)
  | .nullTerm, s => let r := read_null_terminated_string s; (.ok (), r.2)
  | .skipN n, s => skip s n

/-- The number of bytes a cursor operation consumes when it succeeds.
For the NUL-terminated read this is the length of the zero-free run at
the cursor plus the terminator, capped at the end of the buffer. -/
def opAdvance : CursorOp → FastEXRParser → Nat
  | .u8, _ => 1
  | .u32, _ => 4
  | .i32, _ => 4
  | .f32, _ => 4
  | .fixedStr n, _ => n
  | .nullTerm, s =>
    min (((s.data.drop s.position).takeWhile (fun b => b != 0)).length + 1)
      (s.data.length - s.position)
  | .skipN n, _ => n

/-- The fixed byte requirement of an operation (`none` for the
NUL-terminated read, which never fails). -/
def opReq : CursorOp → Option Nat
  | .u8 => some 1
  | .u32 => some 4
  | .i32 => some 4
  | .f32 => some 4
  | .fixedStr n => some n
  | .nullTerm => none
  | .skipN n => some n

/-
Part 2 embeds the channel classifier of src/main.rs and the pattern
matchers of src/main.rs and src/simd_patterns.rs.  Strings are again raw
UTF-8 byte lists; every string operation the source uses (equality,
`starts_with`, `ends_with`, `find('.')` with byte slicing, and
`strip_prefix`/`strip_suffix` of the ASCII character `*`) acts on the
UTF-8 bytes in exactly this way, so the byte model is faithful.
46 is '.', 42 is '*'.
-/

/-- `str::starts_with` on byte lists. -/
def starts_with (text pat : List Nat) : Bool :=
  match pat, text with
  | [], _ => true
  | _ :: _, [] => false
  | a :: ps, b :: ts => a == b && starts_with ts ps

/-- `str::ends_with` on byte lists (a suffix is a reversed prefix). -/
def ends_with (text pat : List Nat) : Bool :=
  starts_with text.reverse pat.reverse

/-- `str::strip_prefix(c)` for a single ASCII character `c`. -/
def stripPrefixChar (l : List Nat) (c : Nat) : Option (List Nat) :=
  match l with
  | [] => none
  | x :: xs => if x = c then some xs else none

/-- `str::strip_suffix(c)` for a single ASCII character `c`: remove the
last element when it equals `c`. -/
def stripSuffixChar (l : List Nat) (c : Nat) : Option (List Nat) :=
  if l.getLast? = some c then some l.dropLast else none

/-- `fn matches_pattern` from src/main.rs. -/
def matches_pattern (text pattern : List Nat) : Bool :=
  if pattern = [42] then true
  else
    match stripSuffixChar pattern 42 with
    | some prefixPat => starts_with text prefixPat
    | none =>
      match stripPrefixChar pattern 42 with
      | some suffixPat => ends_with text suffixPat
      | none => text == pattern

/-- `matches_prefix_sse2` from src/simd_patterns.rs: compare the prefix
chunk by chunk (16 bytes per SSE2 register), then compare the remaining
`len % 16` bytes. -/
def matches_prefix_sse2 (text pat : List Nat) : Bool :=
  let chunks := pat.length / 16
  ((List.range chunks).all fun i =>
      (text.drop (i * 16)).take 16 == (pat.drop (i * 16)).take 16)
    && (let remaining := pat.length % 16
        if 0 < remaining then
          (text.drop (chunks * 16)).take remaining == pat.drop (chunks * 16)
        else true)

/-- `matches_prefix_simd` from src/simd_patterns.rs.  The SSE2 branch is
taken for prefixes of at least 16 bytes when the CPU reports SSE2; the
non-SSE2 fallback is `starts_with`, which the lemmas below prove equal
to the SSE2 comparison, so the feature flag cannot change the result. -/
def matches_prefix_simd (text pat : List Nat) : Bool :=
  if text.length < pat.length then false
  else if 16 ≤ pat.length then matches_prefix_sse2 text pat
  else starts_with text pat

/-- `matches_suffix_simd` from src/simd_patterns.rs. -/
def matches_suffix_simd (text pat : List Nat) : Bool :=
  ends_with text pat

/-- `fn matches_pattern_simd` from src/simd_patterns.rs. -/
def matches_pattern_simd (text pattern : List Nat) : Bool :=
  if pattern = [42] then true
  else if pattern = [] then text == []
  else
    match stripSuffixChar pattern 42 with
    | some prefixPat => matches_prefix_simd text prefixPat
    | none =>
      match stripPrefixChar pattern 42 with
      | some suffixPat => matches_suffix_simd text suffixPat
      | none => text == pattern

/-- The pattern semantics exactly as the specification words them:
`*` matches anything; a pattern of the form `P*` matches any text with
prefix `P`; a pattern of the form `*S` matches any text with suffix `S`;
any pattern of none of these forms requires an exact match. -/
def matchesPatternSpec (text pattern : List Nat) : Prop :=
  pattern = [42]
  ∨ (∃ p r, pattern = p ++ [42] ∧ p ++ r = text)
  ∨ (∃ sfx r, pattern = 42 :: sfx ∧ r ++ sfx = text)
  ∨ ((¬ ∃ p, pattern = p ++ [42]) ∧ (¬ ∃ sfx, pattern = 42 :: sfx) ∧ text = pattern)

/-- Bytes of "channels" are already defined; the classifier constants
follow.  Bytes of "R". -/
def strR : List Nat := [82]

/-- Bytes of "G". -/
def strG : List Nat := [71]

/-- Bytes of "B". -/
def strB : List Nat := [66]

/-- Bytes of "A". -/
def strA : List Nat := [65]

/-- Bytes of the group key "base". -/
def keyBase : List Nat := [98, 97, 115, 101]

/-- Bytes of the group key "scene". -/
def keyScene : List Nat := [115, 99, 101, 110, 101]

/-- Bytes of the group key "technical". -/
def keyTechnical : List Nat := [116, 101, 99, 104, 110, 105, 99, 97, 108]

/-- Bytes of the group key "light". -/
def keyLight : List Nat := [108, 105, 103, 104, 116]

/-- Bytes of the group key "cryptomatte". -/
def keyCryptomatte : List Nat := [99, 114, 121, 112, 116, 111, 109, 97, 116, 116, 101]

/-- Bytes of the group key "scene_objects". -/
def keySceneObjects : List Nat := [115, 99, 101, 110, 101, 95, 111, 98, 106, 101, 99, 116, 115]

/-- Bytes of the cache key "basic_rgb". -/
def keyBasicRgb : List Nat := [98, 97, 115, 105, 99, 95, 114, 103, 98]

/-- Bytes of the cache key "other". -/
def keyOther : List Nat := [111, 116, 104, 101, 114]

/-- Bytes of "Base". -/
def strBase : List Nat := [66, 97, 115, 101]

/-- Bytes of "Scene". -/
def strScene : List Nat := [83, 99, 101, 110, 101]

/-- Bytes of "Technical". -/
def strTechnical : List Nat := [84, 101, 99, 104, 110, 105, 99, 97, 108]

/-- Bytes of "Light". -/
def strLight : List Nat := [76, 105, 103, 104, 116]

/-- Bytes of "Cryptomatte". -/
def strCryptomatte : List Nat := [67, 114, 121, 112, 116, 111, 109, 97, 116, 116, 101]

/-- Bytes of "Scene Objects". -/
def strSceneObjects : List Nat := [83, 99, 101, 110, 101, 32, 79, 98, 106, 101, 99, 116, 115]

/-- Bytes of "Basic RGB". -/
def strBasicRGB : List Nat := [66, 97, 115, 105, 99, 32, 82, 71, 66]

/-- Bytes of "Other". -/
def strOther : List Nat := [79, 116, 104, 101, 114]

/-- The process-wide `GROUP_NAME_CACHE` of src/main.rs, as an
association list from cache key to interned display string. -/
def GROUP_NAME_CACHE : List (List Nat × List Nat) :=
  [ (keyBase, strBase)
  , (keyScene, strScene)
  , (keyTechnical, strTechnical)
  , (keyLight, strLight)
  , (keyCryptomatte, strCryptomatte)
  , (keySceneObjects, strSceneObjects)
  , (keyBasicRgb, strBasicRGB)
  , (keyOther, strOther) ]

/-- `GROUP_NAME_CACHE.get(k)`. -/
def cacheLookup (k : List Nat) : Option (List Nat) :=
  (GROUP_NAME_CACHE.find? fun kv => kv.1 = k).map fun kv => kv.2

/-- `struct GroupDefinition`. -/
structure GroupDefinition where
  name : List Nat
  prefixes : List (List Nat)
  patterns : List (List Nat)
  basic_rgb : Bool
deriving DecidableEq, Repr

/-- `struct FallbackNames`. -/
structure FallbackNames where
  basic_rgb : List Nat
  default : List Nat
deriving DecidableEq, Repr

/-- `struct ConfigPaths`. -/
structure ConfigPaths where
  data_folder : List Nat
deriving DecidableEq, Repr

/-- `struct ConfigSettings`. -/
structure ConfigSettings where
  basic_rgb_channels : List (List Nat)
  group_priority_order : List (List Nat)
  fallback_names : FallbackNames
  paths : ConfigPaths
deriving DecidableEq, Repr

/-- `struct ChannelGroupConfig`.  The `groups` HashMap is an association
list; lookups go by key, and the one values-iteration in the classifier
is insensitive to the iteration order (see `determine_channel_group`). -/
structure ChannelGroupConfig where
  config : ConfigSettings
  groups : List (List Nat × GroupDefinition)
  default_group : List Nat
deriving DecidableEq, Repr

/-- `config.groups.get(key)`. -/
def groupsGet (groups : List (List Nat × GroupDefinition)) (k : List Nat) :
    Option GroupDefinition :=
  (groups.find? fun kv => kv.1 = k).map fun kv => kv.2

/-- The priority-order walk of `determine_channel_group`: for each key
in order, look the group up; return on the first exact-prefix hit or the
first matching wildcard pattern.  Every hit inside one group returns the
same value, so testing the prefix list and the pattern list with `any`
is the same as the source's two sequential loops. -/
def priorityFind (config : ChannelGroupConfig) (pfx : List Nat) :
    List (List Nat) → Option (List Nat)
  | [] => none
  | gk :: rest =>
    match groupsGet config.groups gk with
    | some gd =>
      if gd.prefixes.any fun p => pfx = p then
        some ((cacheLookup gk).getD gd.name)
      else if gd.patterns.any fun pat => matches_pattern pfx pat then
        some ((cacheLookup gk).getD gd.name)
      else priorityFind config pfx rest
    | none => priorityFind config pfx rest

/-- `fn determine_channel_group` from src/main.rs.  The basic-RGB branch
iterates `config.groups.values()` looking for a `basic_rgb` flag; the
HashMap iteration order is arbitrary, but whichever flagged group is
found, the returned value is the cache entry for "base" (the cache
always contains that key, so the `unwrap_or_else` fallback to the
group's own name is dead), hence modelling the iteration with `find?`
over the association list is faithful.  The prefix is the slice before
the first '.' (byte 46), or the whole name. -/
def determine_channel_group (channel_name : List Nat) (config : ChannelGroupConfig) :
    List Nat :=
  if [strR, strG, strB, strA].contains channel_name then
    match config.groups.find? fun kv => kv.2.basic_rgb with
    | some kv => (cacheLookup keyBase).getD kv.2.name
    | none => (cacheLookup keyBasicRgb).getD config.config.fallback_names.basic_rgb
  else
    let pfx := channel_name.takeWhile fun b => b != 46
    match priorityFind config pfx config.config.group_priority_order with
    | some result => result
    | none =>
      if (groupsGet config.groups keySceneObjects).isSome then
        (cacheLookup keySceneObjects).getD config.config.fallback_names.default
      else
        (cacheLookup keyOther).getD config.config.fallback_names.default

/-- Bytes of "Beauty". -/
def strBeauty : List Nat := [66, 101, 97, 117, 116, 121]

/-- Bytes of "Background". -/
def strBackground : List Nat := [66, 97, 99, 107, 103, 114, 111, 117, 110, 100]

/-- Bytes of "Translucency". -/
def strTranslucency : List Nat := [84, 114, 97, 110, 115, 108, 117, 99, 101, 110, 99, 121]

/-- Bytes of "Translucency0". -/
def strTranslucency0 : List Nat := [84, 114, 97, 110, 115, 108, 117, 99, 101, 110, 99, 121, 48]

/-- Bytes of "VirtualBeauty". -/
def strVirtualBeauty : List Nat := [86, 105, 114, 116, 117, 97, 108, 66, 101, 97, 117, 116, 121]

/-- Bytes of "ZDepth". -/
def strZDepth : List Nat := [90, 68, 101, 112, 116, 104]

/-- Bytes of "RenderStamp". -/
def strRenderStamp : List Nat := [82, 101, 110, 100, 101, 114, 83, 116, 97, 109, 112]

/-- Bytes of "RenderStamp0". -/
def strRenderStamp0 : List Nat := [82, 101, 110, 100, 101, 114, 83, 116, 97, 109, 112, 48]

/-- Bytes of "Sky". -/
def strSky : List Nat := [83, 107, 121]

/-- Bytes of "Sun". -/
def strSun : List Nat := [83, 117, 110]

/-- Bytes of "LightMix". -/
def strLightMix : List Nat := [76, 105, 103, 104, 116, 77, 105, 120]

/-- Bytes of "Cryptomatte0". -/
def strCryptomatte0 : List Nat := [67, 114, 121, 112, 116, 111, 109, 97, 116, 116, 101, 48]

/-- Bytes of the wildcard pattern "Light*". -/
def patLightStar : List Nat := [76, 105, 103, 104, 116, 42]

/-- Bytes of the wildcard pattern "ID*". -/
def patIDStar : List Nat := [73, 68, 42]

/-- Bytes of the wildcard pattern "_*". -/
def patUnderscoreStar : List Nat := [95, 42]

/-- Bytes of "data". -/
def strData : List Nat := [100, 97, 116, 97]

/-- `fn create_default_config` from src/main.rs.  The groups map holds
six entries, listed in insertion order (lookups are keyed, so the list
order never matters). -/
def create_default_config : ChannelGroupConfig :=
  { config :=
    { basic_rgb_channels := [strR, strG, strB, strA]
    , group_priority_order :=
        [keyCryptomatte, keyLight, keyScene, keyTechnical, keySceneObjects]
    , fallback_names := { basic_rgb := strBasicRGB, default := strOther }
    , paths := { data_folder := strData } }
  , groups :=
    [ (keyBase,
       { name := strBase, prefixes := [strBeauty], patterns := [], basic_rgb := true })
    , (keyScene,
       { name := strScene
       , prefixes := [strBackground, strTranslucency, strTranslucency0,
                      strVirtualBeauty, strZDepth]
       , patterns := [], basic_rgb := false })
    , (keyTechnical,
       { name := strTechnical, prefixes := [strRenderStamp, strRenderStamp0]
       , patterns := [], basic_rgb := false })
    , (keyLight,
       { name := strLight, prefixes := [strSky, strSun, strLightMix]
       , patterns := [patLightStar], basic_rgb := false })
    , (keyCryptomatte,
       { name := strCryptomatte, prefixes := [strCryptomatte, strCryptomatte0]
       , patterns := [], basic_rgb := false })
    , (keySceneObjects,
       { name := strSceneObjects, prefixes := []
       , patterns := [patIDStar, patUnderscoreStar], basic_rgb := false }) ]
  , default_group := strOther }

/-- Bytes of "LightMix.blue". -/
def strLightMixBlue : List Nat := [76, 105, 103, 104, 116, 77, 105, 120, 46, 98, 108, 117, 101]

/-- Bytes of "Background.red". -/
def strBackgroundRed : List Nat := [66, 97, 99, 107, 103, 114, 111, 117, 110, 100, 46, 114, 101, 100]

/-- Bytes of "ID0.red". -/
def strID0Red : List Nat := [73, 68, 48, 46, 114, 101, 100]

/-- Bytes of "_walls.blue". -/
def strWallsBlue : List Nat := [95, 119, 97, 108, 108, 115, 46, 98, 108, 117, 101]

/-- A configuration whose only group is flagged `basic_rgb` but carries
the display name "MyBase" ([77,121,66,97,115,101]), with a configured
basic-RGB fallback label "F" ([70]). -/
def cexConfigFlagged : ChannelGroupConfig :=
  { config :=
    { basic_rgb_channels := [strR, strG, strB, strA]
    , group_priority_order := []
    , fallback_names := { basic_rgb := [70], default := [68] }
    , paths := { data_folder := strData } }
  , groups :=
    [ ([103], { name := [77, 121, 66, 97, 115, 101], prefixes := []
              , patterns := [], basic_rgb := true }) ]
  , default_group := [68] }

/-- A configuration with no group flagged `basic_rgb` and the configured
basic-RGB fallback label "F" ([70]). -/
def cexConfigUnflagged : ChannelGroupConfig :=
  { config :=
    { basic_rgb_channels := [strR, strG, strB, strA]
    , group_priority_order := []
    , fallback_names := { basic_rgb := [70], default := [68] }
    , paths := { data_folder := strData } }
  , groups :=
    [ ([103], { name := [77, 121, 66, 97, 115, 101], prefixes := []
              , patterns := [], basic_rgb := false }) ]
  , default_group := [68] }

/-
Part 3: lemmas about the cursor primitives, phrased through the shape of
`data.drop pos`.
-/

theorem pos_lt_of_drop_cons {data : List Nat} {pos x : Nat} {l : List Nat}
    (h : data.drop pos = x :: l) : pos < data.length := by
  by_contra hc
  push_neg at hc
  rw [List.drop_eq_nil_of_le hc] at h
  exact List.noConfusion h

theorem getElem?_of_drop_cons {data : List Nat} {pos x : Nat} {l : List Nat}
    (h : data.drop pos = x :: l) : data[pos]? = some x := by
  have hd := List.getElem?_drop data pos 0
  rw [h] at hd
  simpa using hd.symm

theorem getD_of_drop_cons {data : List Nat} {pos x : Nat} {l : List Nat}
    (h : data.drop pos = x :: l) : data.getD pos 0 = x := by
  simp [List.getD_eq_getElem?_getD, getElem?_of_drop_cons h]

theorem drop_succ_of_drop_cons {data : List Nat} {pos x : Nat} {l : List Nat}
    (h : data.drop pos = x :: l) : data.drop (pos + 1) = l := by
  rw [← List.tail_drop, h]
  rfl

theorem length_eq_of_drop_cons {data : List Nat} {pos x : Nat} {l : List Nat}
    (h : data.drop pos = x :: l) : data.length = pos + 1 + l.length := by
  have h1 := pos_lt_of_drop_cons h
  have h2 := List.length_drop pos data
  rw [h] at h2
  simp at h2
  omega

theorem readNullGo_spec (nm : List Nat) (h0 : 0 ∉ nm) :
    ∀ (pos : Nat) (acc rest : List Nat),
      readNullGo (nm ++ 0 :: rest) pos acc = (acc ++ nm, pos + nm.length + 1) := by
  induction nm with
  | nil =>
    intro pos acc rest
    simp [readNullGo]
  | cons b nm ih =>
    intro pos acc rest
    have hb : b ≠ 0 := by
      intro hb
      exact h0 (by simp [hb])
    simp only [List.cons_append, readNullGo, if_neg hb, List.append_eq]
    rw [ih (fun hm => h0 (List.mem_cons_of_mem _ hm)) (pos + 1) (acc ++ [b]) rest]
    simp
    omega

theorem read_null_spec {data : List Nat} {pos : Nat} {nm rest : List Nat}
    (h0 : 0 ∉ nm) (h : data.drop pos = nm ++ 0 :: rest) :
    read_null_terminated_string ⟨data, pos⟩ = (nm, ⟨data, pos + nm.length + 1⟩) := by
  unfold read_null_terminated_string
  dsimp only
  rw [h, readNullGo_spec nm h0 pos [] rest]
  simp

theorem read_u32_spec {data : List Nat} {pos b0 b1 b2 b3 : Nat} {rest : List Nat}
    (h : data.drop pos = b0 :: b1 :: b2 :: b3 :: rest) :
    read_u32 ⟨data, pos⟩ =
      (.ok (b0 + 256 * b1 + 65536 * b2 + 16777216 * b3), ⟨data, pos + 4⟩) := by
  have d1 := drop_succ_of_drop_cons h
  have d2 := drop_succ_of_drop_cons d1
  have d3 := drop_succ_of_drop_cons d2
  have q0 := getElem?_of_drop_cons h
  have q1 : data[pos + 1]? = some b1 := getElem?_of_drop_cons d1
  have q2 : data[pos + 2]? = some b2 := by
    have := getElem?_of_drop_cons d2
    simpa [show pos + 1 + 1 = pos + 2 from by omega] using this
  have q3 : data[pos + 3]? = some b3 := by
    have := getElem?_of_drop_cons d3
    simpa [show pos + 1 + 1 + 1 = pos + 3 from by omega] using this
  have hlen := length_eq_of_drop_cons h
  simp only [read_u32]
  rw [if_neg (by simp at hlen ⊢; omega)]
  simp [List.getD_eq_getElem?_getD, q0, q1, q2, q3]

theorem toLE4_decode {v : Nat} (hv : v < 4294967296) :
    v % 256 + 256 * (v / 256 % 256) + 65536 * (v / 65536 % 256)
      + 16777216 * (v / 16777216 % 256) = v := by
  omega

theorem read_u32_toLE4 {data : List Nat} {pos v : Nat} {rest : List Nat}
    (h : data.drop pos = toLE4 v ++ rest) (hv : v < 4294967296) :
    read_u32 ⟨data, pos⟩ = (.ok v, ⟨data, pos + 4⟩) := by
  have hs : data.drop pos
      = v % 256 :: (v / 256 % 256) :: (v / 65536 % 256) :: (v / 16777216 % 256) :: rest := by
    simpa [toLE4] using h
  rw [read_u32_spec hs]
  rw [toLE4_decode hv]

theorem read_i32_toLE4 {data : List Nat} {pos v : Nat} {rest : List Nat}
    (h : data.drop pos = toLE4 v ++ rest) (hv : v < 4294967296) :
    read_i32 ⟨data, pos⟩ = (.ok (toI32 v), ⟨data, pos + 4⟩) := by
  unfold read_i32
  rw [read_u32_toLE4 h hv]

theorem read_u8_spec {data : List Nat} {pos x : Nat} {l : List Nat}
    (h : data.drop pos = x :: l) :
    read_u8 ⟨data, pos⟩ = (.ok x, ⟨data, pos + 1⟩) := by
  have hlt := pos_lt_of_drop_cons h
  have hx := getElem?_of_drop_cons h
  simp only [read_u8]
  rw [if_neg (by simp; omega)]
  simp [List.getD_eq_getElem?_getD, hx]

theorem skip_spec {data : List Nat} {pos n : Nat} (h : pos + n ≤ data.length) :
    skip ⟨data, pos⟩ n = (.ok (), ⟨data, pos + n⟩) := by
  simp only [skip]
  rw [if_neg (by simp; omega)]

theorem read_fixed_spec {data payload rest : List Nat} {pos : Nat}
    (h : data.drop pos = payload ++ rest) (hp : pos + payload.length ≤ data.length) :
    read_fixed_string ⟨data, pos⟩ payload.length
      = (.ok payload, ⟨data, pos + payload.length⟩) := by
  simp only [read_fixed_string]
  rw [if_neg (by simp; omega)]
  rw [h]
  simp [List.take_left]

theorem toLE4_length (v : Nat) : (toLE4 v).length = 4 := rfl

theorem drop_of_drop_append {data pre rest : List Nat} {pos : Nat}
    (h : data.drop pos = pre ++ rest) : data.drop (pos + pre.length) = rest := by
  rw [← List.drop_drop, h, List.drop_left]

theorem drop_of_null {data nm rest : List Nat} {pos : Nat}
    (h : data.drop pos = nm ++ 0 :: rest) :
    data.drop (pos + nm.length + 1) = rest := by
  have h2 : data.drop pos = (nm ++ [0]) ++ rest := by
    rw [h]
    simp
  have h3 := drop_of_drop_append h2
  rw [List.length_append] at h3
  simpa [← Nat.add_assoc] using h3

theorem fromU32_lt3 {v : Nat} (h : v < 3) :
    SampleType.fromU32 v = .ok (sampleTypeOfNat v) := by
  interval_cases v <;> rfl

theorem fromU32_ge3 {v : Nat} (h : 3 ≤ v) :
    SampleType.fromU32 v = .error (.unknownSampleType v) := by
  match v, h with
  | v + 3, _ => rfl

theorem encodeChan_length (c : ChanEnc) : (encodeChan c).length = c.name.length + 17 := by
  simp [encodeChan, toLE4]

theorem encodeChans_nil : encodeChans [] = [] := rfl

theorem encodeChans_cons (c : ChanEnc) (l : List ChanEnc) :
    encodeChans (c :: l) = encodeChan c ++ encodeChans l := by
  simp [encodeChans]

theorem length_le_encodeChans (l : List ChanEnc) :
    l.length ≤ (encodeChans l).length := by
  induction l with
  | nil => simp [encodeChans]
  | cons c l ih =>
    rw [encodeChans_cons]
    have hc := encodeChan_length c
    simp only [List.length_append, List.length_cons]
    omega

theorem parseChanLoop_good (good : List ChanEnc) :
    ∀ (f startPos size pos : Nat) (data : List Nat) (acc : List ChannelInfo)
      (tail : List Nat) (k : Nat),
      (∀ c ∈ good, wfChan c) →
      data.drop pos = encodeChans good ++ tail →
      startPos + size = pos + (encodeChans good).length + k →
      1 ≤ k →
      good.length ≤ f →
      parseChanLoop f startPos size ⟨data, pos⟩ acc
        = parseChanLoop (f - good.length) startPos size
            ⟨data, pos + (encodeChans good).length⟩ (acc ++ good.map chanInfoOf) := by
  induction good with
  | nil =>
    intro f startPos size pos data acc tail k _ _ _ _ _
    simp [encodeChans_nil]
  | cons c good ih =>
    intro f startPos size pos data acc tail k hwf hdrop hsz hk hf
    obtain ⟨f, rfl⟩ : ∃ g, f = g + 1 := ⟨f - 1, by simp at hf; omega⟩
    obtain ⟨hname, hzero, hptype, hxs, hys⟩ := hwf c (by simp)
    rw [encodeChans_cons] at hdrop hsz
    have hshape : data.drop pos
        = c.name ++ 0 :: (toLE4 c.ptype ++ c.plin :: c.r1 :: c.r2 :: c.r3 ::
            (toLE4 c.xs ++ (toLE4 c.ys ++ (encodeChans good ++ tail)))) := by
      rw [hdrop]
      simp [encodeChan]
    have hd1 := drop_of_null hshape
    have hd2 := drop_of_drop_append hd1
    rw [toLE4_length] at hd2
    have hd3 := drop_succ_of_drop_cons hd2
    have hd4 := drop_succ_of_drop_cons hd3
    have hd5 := drop_succ_of_drop_cons hd4
    have hd6 := drop_succ_of_drop_cons hd5
    have hd6' : data.drop (pos + c.name.length + 1 + 4 + 1 + 3)
        = toLE4 c.xs ++ (toLE4 c.ys ++ (encodeChans good ++ tail)) := by
      rw [show pos + c.name.length + 1 + 4 + 1 + 3
            = pos + c.name.length + 1 + 4 + 1 + 1 + 1 + 1 from by omega]
      exact hd6
    have hd7 := drop_of_drop_append hd6'
    rw [toLE4_length] at hd7
    have hd8 := drop_of_drop_append hd7
    rw [toLE4_length] at hd8
    have hlen2 := length_eq_of_drop_cons hd2
    have hcond : pos < startPos + size := by
      have e1 := encodeChan_length c
      rw [List.length_append] at hsz
      omega
    rw [parseChanLoop]
    rw [if_pos (by exact hcond)]
    rw [read_null_spec hzero hshape]
    simp only []
    rw [if_neg hname]
    rw [read_u32_toLE4 hd1 (by omega)]
    dsimp only
    rw [read_u8_spec hd2]
    dsimp only
    rw [skip_spec (by simp at hlen2; omega)]
    dsimp only
    rw [read_i32_toLE4 hd6' (by omega)]
    dsimp only
    rw [read_i32_toLE4 hd7 (by omega)]
    dsimp only
    rw [fromU32_lt3 hptype]
    dsimp only
    have e1 := encodeChan_length c
    rw [List.length_append] at hsz
    rw [encodeChans_cons, List.length_append]
    simp only [List.map_cons]
    have hfix : pos + ((encodeChan c).length + (encodeChans good).length)
        = pos + c.name.length + 1 + 4 + 1 + 3 + 4 + 4 + (encodeChans good).length := by omega
    rw [hfix]
    rw [show f + 1 - (c :: good).length = f - good.length from by
      simp only [List.length_cons]; omega]
    have hacc : acc ++ chanInfoOf c :: List.map chanInfoOf good
        = (acc ++ [chanInfoOf c]) ++ List.map chanInfoOf good := by simp
    rw [hacc]
    have hgoal := ih f startPos size (pos + c.name.length + 1 + 4 + 1 + 3 + 4 + 4) data
        (acc ++ [chanInfoOf c]) tail k
        (fun x hx => hwf x (List.mem_cons_of_mem _ hx)) hd8 (by omega) hk
        (by simp at hf; omega)
    simpa [chanInfoOf] using hgoal

/-- C9: a channels-attribute payload in which an empty channel name
occurs before the declared span is exhausted makes `parse_channels`
stop at that empty name without error, return the channels appended so
far in encountered order, and leave the remaining `restP` declared
bytes unconsumed: the cursor stops right after the terminator byte,
short of the declared span end by `restP.length` bytes. -/
theorem parse_channels_early_terminator
    (good : List ChanEnc) (data : List Nat) (pos : Nat) (restP tail : List Nat)
    (size : Nat)
    (hwf : ∀ c ∈ good, wfChan c)
    (hdrop : data.drop pos = encodeChans good ++ 0 :: (restP ++ tail))
    (hsize : size = (encodeChans good).length + 1 + restP.length) :
    parse_channels ⟨data, pos⟩ size
      = (.ok (good.map chanInfoOf), ⟨data, pos + (encodeChans good).length + 1⟩) := by
  have hle := length_le_encodeChans good
  unfold parse_channels
  dsimp only
  rw [parseChanLoop_good good (size + 1) pos size pos data [] (0 :: (restP ++ tail))
      (1 + restP.length) hwf hdrop (by omega) (by omega) (by omega)]
  obtain ⟨f2, hf2⟩ : ∃ g, size + 1 - good.length = g + 1 := ⟨size - good.length, by omega⟩
  rw [hf2, parseChanLoop]
  dsimp only
  rw [if_pos (by omega)]
  have hterm : data.drop (pos + (encodeChans good).length) = [] ++ 0 :: (restP ++ tail) := by
    simpa using drop_of_drop_append hdrop
  rw [read_null_spec (by simp) hterm]
  simp

/-- Witness for `parse_channels_early_terminator`: a payload holding one
channel record ("R", type code 1 = Half, sampling 1/1), then the empty
name, with two of the declared 21 bytes left over; the parse returns
that one channel and stops at position 19. -/
theorem parse_channels_early_terminator_witness :
    parse_channels ⟨[82, 0, 1, 0, 0, 0, 0, 0, 0, 0, 1, 0, 0, 0, 1, 0, 0, 0, 0, 7, 7], 0⟩ 21
      = (.ok [{ name := [82], sample_type := .Half, sampling := (1, 1)
              , quantize_linearly := false }],
         ⟨[82, 0, 1, 0, 0, 0, 0, 0, 0, 0, 1, 0, 0, 0, 1, 0, 0, 0, 0, 7, 7], 19⟩) :=
  (parse_channels_early_terminator
      [⟨[82], 1, 0, 0, 0, 0, 1, 1⟩]
      [82, 0, 1, 0, 0, 0, 0, 0, 0, 0, 1, 0, 0, 0, 1, 0, 0, 0, 0, 7, 7]
      0 [7, 7] [] 21 (by decide) (by decide) (by decide)).trans (by rfl)

/-- C4: a channel record inside the channels attribute whose 4-byte
pixel-type code decodes to a value outside 0, 1, 2 makes parsing of the
whole file fail with the unknown-sample-type error carrying the raw
code value, and no metadata record is returned: `parse_metadata`
propagates the error that `parse_channels` raises when it reaches the
offending record (any number of well-formed records may precede it). -/
theorem parse_metadata_unknown_sample_type
    (good : List ChanEnc) (bad : ChanEnc) (typeB restP tail : List Nat) (ver : Nat)
    (hwf : ∀ c ∈ good, wfChan c)
    (hbn : bad.name ≠ []) (hbz : 0 ∉ bad.name)
    (ht3 : 3 ≤ bad.ptype) (ht32 : bad.ptype < 4294967296)
    (hxs : bad.xs < 4294967296) (hys : bad.ys < 4294967296)
    (htz : 0 ∉ typeB) (hver : ver < 4294967296)
    (hpl : (encodeChans good ++ encodeChan bad ++ restP).length < 4294967296) :
    (parse_metadata
        ⟨mkChannelsFile typeB (encodeChans good ++ encodeChan bad ++ restP) tail ver, 0⟩).1
      = .error (.unknownSampleType bad.ptype) := by
  set payload := encodeChans good ++ encodeChan bad ++ restP with hpay
  set data := mkChannelsFile typeB payload tail ver with hdata
  have A0 : data.drop 0
      = toLE4 20000630 ++ (toLE4 ver ++ (channelsStr ++ 0 ::
          (typeB ++ 0 :: (toLE4 payload.length ++ (payload ++ tail))))) := by
    rw [List.drop_zero, hdata]
    simp [mkChannelsFile, List.append_assoc]
  have A1 := drop_of_drop_append A0
  rw [toLE4_length] at A1
  have A2 := drop_of_drop_append A1
  rw [toLE4_length] at A2
  have A3 := drop_of_null A2
  have A4 := drop_of_null A3
  have A5 := drop_of_drop_append A4
  rw [toLE4_length] at A5
  have A6 : data.drop (0 + 4 + 4 + channelsStr.length + 1 + typeB.length + 1 + 4)
      = encodeChans good ++ (encodeChan bad ++ (restP ++ tail)) := by
    rw [A5, hpay]
    simp [List.append_assoc]
  have hdlen : data.length = 22 + typeB.length + payload.length + tail.length := by
    rw [hdata]
    simp [mkChannelsFile, channelsStr, toLE4]
    omega
  have hble := encodeChan_length bad
  have hgle := length_le_encodeChans good
  have hplen : payload.length
      = (encodeChans good).length + (encodeChan bad).length + restP.length := by
    rw [hpay]
    simp [List.length_append]
    omega
  unfold parse_metadata
  rw [read_u32_toLE4 A0 (by norm_num)]
  dsimp only
  rw [if_neg (by simp)]
  rw [read_u32_toLE4 A1 hver]
  dsimp only
  rw [parseAttrLoop]
  dsimp only
  rw [if_pos (by omega)]
  rw [parseAttrStep]
  rw [read_null_spec (by decide) A2]
  dsimp only
  rw [if_neg (by decide)]
  rw [read_null_spec htz A3]
  dsimp only
  rw [read_u32_toLE4 A4 hpl]
  dsimp only
  rw [if_pos rfl]
  rw [parse_channels]
  dsimp only
  rw [parseChanLoop_good good (payload.length + 1)
      (0 + 4 + 4 + channelsStr.length + 1 + typeB.length + 1 + 4) payload.length
      (0 + 4 + 4 + channelsStr.length + 1 + typeB.length + 1 + 4) data []
      (encodeChan bad ++ (restP ++ tail)) ((encodeChan bad).length + restP.length)
      hwf A6 (by omega) (by omega) (by omega)]
  obtain ⟨f2, hf2⟩ : ∃ g, payload.length + 1 - good.length = g + 1 :=
    ⟨payload.length - good.length, by omega⟩
  rw [hf2, parseChanLoop]
  dsimp only
  rw [if_pos (by omega)]
  have B0 : data.drop (0 + 4 + 4 + channelsStr.length + 1 + typeB.length + 1 + 4
        + (encodeChans good).length)
      = bad.name ++ 0 :: (toLE4 bad.ptype ++ bad.plin :: bad.r1 :: bad.r2 :: bad.r3 ::
          (toLE4 bad.xs ++ (toLE4 bad.ys ++ (restP ++ tail)))) := by
    have := drop_of_drop_append A6
    rw [this]
    simp [encodeChan, List.append_assoc]
  rw [read_null_spec hbz B0]
  dsimp only
  rw [if_neg hbn]
  have B1 := drop_of_null B0
  rw [read_u32_toLE4 B1 ht32]
  dsimp only
  have B2 := drop_of_drop_append B1
  rw [toLE4_length] at B2
  rw [read_u8_spec B2]
  dsimp only
  have B3 := drop_succ_of_drop_cons B2
  have B4 := drop_succ_of_drop_cons B3
  have B5 := drop_succ_of_drop_cons B4
  have B6 := drop_succ_of_drop_cons B5
  have hlenB := length_eq_of_drop_cons B2
  rw [skip_spec (by simp at hlenB; omega)]
  dsimp only
  have B6' : data.drop (0 + 4 + 4 + channelsStr.length + 1 + typeB.length + 1 + 4
        + (encodeChans good).length + bad.name.length + 1 + 4 + 1 + 3)
      = toLE4 bad.xs ++ (toLE4 bad.ys ++ (restP ++ tail)) := by
    rw [show 0 + 4 + 4 + channelsStr.length + 1 + typeB.length + 1 + 4
          + (encodeChans good).length + bad.name.length + 1 + 4 + 1 + 3
        = 0 + 4 + 4 + channelsStr.length + 1 + typeB.length + 1 + 4
          + (encodeChans good).length + bad.name.length + 1 + 4 + 1 + 1 + 1 + 1 from by omega]
    exact B6
  rw [read_i32_toLE4 B6' hxs]
  dsimp only
  have B7 := drop_of_drop_append B6'
  rw [toLE4_length] at B7
  rw [read_i32_toLE4 B7 hys]
  dsimp only
  rw [fromU32_ge3 ht3]

/-- Witness for `parse_metadata_unknown_sample_type`: a file whose
channels attribute holds one well-formed record and then a record with
pixel-type code 7; the parse fails with that code. -/
theorem parse_metadata_unknown_sample_type_witness :
    (parse_metadata
        ⟨mkChannelsFile [99, 104]
            (encodeChans [⟨[82], 1, 0, 0, 0, 0, 1, 1⟩]
              ++ encodeChan ⟨[88], 7, 0, 0, 0, 0, 1, 1⟩ ++ [5, 5]) [] 2, 0⟩).1
      = .error (.unknownSampleType 7) :=
  parse_metadata_unknown_sample_type
    [⟨[82], 1, 0, 0, 0, 0, 1, 1⟩] ⟨[88], 7, 0, 0, 0, 0, 1, 1⟩ [99, 104] [5, 5] [] 2
    (by decide) (by decide) (by decide) (by decide) (by decide) (by decide) (by decide)
    (by decide) (by decide) (by decide)

/-- C2: a buffer whose first four bytes decode (little-endian) to
anything other than 20000630 makes `parse_metadata` fail with the
invalid-magic error; the cursor stops at position 4, so no attribute
name, type, size or payload is consumed, and the error result carries
no metadata record. -/
theorem parse_metadata_invalid_magic (b0 b1 b2 b3 : Nat) (rest : List Nat)
    (hmagic : b0 + 256 * b1 + 65536 * b2 + 16777216 * b3 ≠ 20000630) :
    parse_metadata ⟨b0 :: b1 :: b2 :: b3 :: rest, 0⟩
      = (.error .invalidMagic, ⟨b0 :: b1 :: b2 :: b3 :: rest, 4⟩) := by
  have h : (b0 :: b1 :: b2 :: b3 :: rest).drop 0 = b0 :: b1 :: b2 :: b3 :: rest :=
    List.drop_zero _
  unfold parse_metadata
  rw [read_u32_spec h]
  dsimp only
  rw [if_pos hmagic]

/-- Witness for `parse_metadata_invalid_magic`: the all-zero magic. -/
theorem parse_metadata_invalid_magic_witness :
    parse_metadata ⟨[0, 0, 0, 0, 9], 0⟩ = (.error .invalidMagic, ⟨[0, 0, 0, 0, 9], 4⟩) :=
  parse_metadata_invalid_magic 0 0 0 0 [9] (by decide)

/-- C3 amended: for an unknown attribute record fully contained in the
buffer, with declared size `S = payload.length`, the cursor position
after processing the attribute equals the position before the record
plus `(len(name)+1) + (len(type)+1) + 4 + S` — the NUL-terminated name
and type, the 4-byte size field, and exactly S payload bytes —
regardless of payload content (printable or not, S inside or outside
(0, 64]).  The claim's constant 8 is corrected to the 4 bytes the size
field actually occupies. -/
theorem unknown_attr_exact_consumption
    (data nameB typeB payload tail : List Nat) (pos : Nat) (m : FastEXRMetadata)
    (hname : nameB ≠ []) (hnz : 0 ∉ nameB) (htz : 0 ∉ typeB)
    (hunknown : nameB ∉ [channelsStr, displayWindowStr, pixelAspectRatioStr,
        compressionStr, lineOrderStr, nameStr])
    (hpl : payload.length < 4294967296)
    (hdrop : data.drop pos
      = nameB ++ 0 :: (typeB ++ 0 :: (toLE4 payload.length ++ (payload ++ tail)))) :
    ∃ m', parseAttrStep ⟨data, pos⟩ m
      = .cont m' ⟨data, pos + (nameB.length + 1) + (typeB.length + 1) + 4 + payload.length⟩ := by
  simp only [List.mem_cons, not_or] at hunknown
  obtain ⟨hch, hdw, hpa, hco, hlo, hnm, -⟩ := hunknown
  have A1 := drop_of_null hdrop
  have A2 := drop_of_null A1
  have A3 := drop_of_drop_append A2
  rw [toLE4_length] at A3
  have h0 := List.length_drop pos data
  rw [hdrop] at h0
  simp only [List.length_append, List.length_cons, toLE4_length] at h0
  have hlen : pos + nameB.length + 1 + typeB.length + 1 + 4 + payload.length
      ≤ data.length := by omega
  rw [parseAttrStep]
  rw [read_null_spec hnz hdrop]
  dsimp only
  rw [if_neg hname]
  rw [read_null_spec htz A1]
  dsimp only
  rw [read_u32_toLE4 A2 hpl]
  dsimp only
  rw [if_neg hch, if_neg hdw, if_neg hpa, if_neg hco, if_neg hlo, if_neg hnm]
  by_cases hsz : 0 < payload.length ∧ payload.length ≤ 64
  · rw [if_pos hsz]
    rw [read_fixed_spec A3 (by omega)]
    dsimp only
    by_cases hpr : payload.all printableByte
    · rw [if_pos hpr]
      exact ⟨_, by rw [show pos + nameB.length + 1 + typeB.length + 1 + 4 + payload.length
          = pos + (nameB.length + 1) + (typeB.length + 1) + 4 + payload.length from by omega]⟩
    · rw [if_neg hpr]
      exact ⟨_, by rw [show pos + nameB.length + 1 + typeB.length + 1 + 4 + payload.length
          = pos + (nameB.length + 1) + (typeB.length + 1) + 4 + payload.length from by omega]⟩
  · rw [if_neg hsz]
    rw [skip_spec (by omega)]
    exact ⟨_, by rw [show pos + nameB.length + 1 + typeB.length + 1 + 4 + payload.length
        = pos + (nameB.length + 1) + (typeB.length + 1) + 4 + payload.length from by omega]⟩

/-- C3 counterexample: the claim's formula
`8 + len(name)+1 + len(type)+1 + S` over-counts the record overhead by
4 (the size field occupies 4 bytes, not 8).  For the unknown attribute
with name "x" (byte 120), type "y" (byte 121) and declared size 1
starting at position 0, the cursor stops at 9, while the formula gives
0 + 8 + 2 + 2 + 1 = 13. -/
theorem unknown_attr_overhead_formula_cex :
    contPos (parseAttrStep ⟨[120, 0, 121, 0, 1, 0, 0, 0, 65], 0⟩ initMetadata) = some 9
      ∧ (9 : Nat) ≠ 0 + 8 + (1 + 1) + (1 + 1) + 1 :=
  ⟨by rfl, by decide⟩

/-- Witness for `unknown_attr_exact_consumption`: the record with name
"ab", type "ty", declared size 3 and non-printable payload, starting at
position 2; the cursor ends at 2 + 3 + 3 + 4 + 3 = 15. -/
theorem unknown_attr_exact_consumption_witness :
    ∃ m', parseAttrStep ⟨[9, 9, 97, 98, 0, 116, 121, 0, 3, 0, 0, 0, 1, 2, 3, 8], 2⟩
        initMetadata
      = .cont m' ⟨[9, 9, 97, 98, 0, 116, 121, 0, 3, 0, 0, 0, 1, 2, 3, 8],
          2 + (2 + 1) + (2 + 1) + 4 + 3⟩ :=
  unknown_attr_exact_consumption
    [9, 9, 97, 98, 0, 116, 121, 0, 3, 0, 0, 0, 1, 2, 3, 8]
    [97, 98] [116, 121] [1, 2, 3] [8] 2 initMetadata
    (by decide) (by decide) (by decide) (by decide) (by decide) (by decide)

/-- C1 at the failing inputs: three attribute branches that complete
without error yet stop short of payload start plus declared size.  The
displayWindow branch with declared size 20 (payload start 24) stops at
40, not 44; the pixelAspectRatio branch with declared size 8 (payload
start 27) stops at 31, not 35; the channels branch whose payload starts
with an early empty-name terminator and declared size 10 (payload start
20) stops at 21, not 30.  The type tags are "box2i", "float" and
"chlist". -/
theorem known_attr_branches_underconsume :
    (contPos (parseAttrStep ⟨displayWindowStr ++ 0 :: ([98, 111, 120, 50, 105] ++ 0 ::
        (toLE4 20 ++ List.replicate 20 1)), 0⟩ initMetadata) = some 40
      ∧ (40 : Nat) ≠ 24 + 20)
    ∧ (contPos (parseAttrStep ⟨pixelAspectRatioStr ++ 0 :: ([102, 108, 111, 97, 116] ++ 0 ::
        (toLE4 8 ++ List.replicate 8 1)), 0⟩ initMetadata) = some 31
      ∧ (31 : Nat) ≠ 27 + 8)
    ∧ (contPos (parseAttrStep ⟨channelsStr ++ 0 :: ([99, 104, 108, 105, 115, 116] ++ 0 ::
        (toLE4 10 ++ 0 :: List.replicate 9 7)), 0⟩ initMetadata) = some 21
      ∧ (21 : Nat) ≠ 20 + 10) :=
  ⟨⟨by rfl, by decide⟩, ⟨by rfl, by decide⟩, ⟨by rfl, by decide⟩⟩

theorem readNullGo_snd (rest : List Nat) :
    ∀ (pos : Nat) (acc : List Nat),
      (readNullGo rest pos acc).2
        = pos + min ((rest.takeWhile fun b => b != 0).length + 1) rest.length := by
  induction rest with
  | nil =>
    intro pos acc
    simp [readNullGo]
  | cons b rest ih =>
    intro pos acc
    by_cases hb : b = 0
    · subst hb
      simp [readNullGo, List.takeWhile_cons]
    · simp only [readNullGo, if_neg hb]
      rw [ih (pos + 1) (acc ++ [b])]
      simp only [List.takeWhile_cons]
      rw [if_pos (by simp [hb])]
      simp only [List.length_cons]
      omega

/-- C8: for every cursor operation and every starting state, the buffer
is never modified; a successful operation advances the position by
exactly the number of bytes it consumes (`opAdvance`); an operation
that fails leaves the state unchanged, and the fixed-requirement
operations fail exactly when their `opReq` bytes would exceed the
buffer; and starting from a position within the buffer, no operation
leaves the position strictly beyond the buffer length. -/
theorem cursor_ops_safe (op : CursorOp) (s : FastEXRParser) :
    (runCursorOp op s).2.data = s.data
    ∧ ((runCursorOp op s).1 = .ok () →
        (runCursorOp op s).2.position = s.position + opAdvance op s)
    ∧ (∀ e, (runCursorOp op s).1 = .error e → (runCursorOp op s).2 = s)
    ∧ (∀ k, opReq op = some k →
        ((runCursorOp op s).1 = .error .endOfData ↔ s.data.length < s.position + k))
    ∧ (s.position ≤ s.data.length →
        (runCursorOp op s).2.position ≤ s.data.length) := by
  cases op with
  | u8 =>
    simp only [runCursorOp, read_u8, opAdvance, opReq]
    split
    next h => simp [Except.map]; omega
    next h => simp [Except.map]; omega
  | u32 =>
    simp only [runCursorOp, read_u32, opAdvance, opReq]
    split
    next h => simp [Except.map]; omega
    next h => simp [Except.map]; omega
  | i32 =>
    simp only [runCursorOp, read_i32, opAdvance, opReq]
    rcases hu : read_u32 s with ⟨r1, s1⟩
    rw [read_u32] at hu
    split at hu
    next hc =>
      cases hu
      simp [Except.map]
      omega
    next hc =>
      cases hu
      simp [Except.map]
      omega
  | f32 =>
    simp only [runCursorOp, read_f32, read_u32, opAdvance, opReq]
    split
    next h => simp [Except.map]; omega
    next h => simp [Except.map]; omega
  | fixedStr n =>
    simp only [runCursorOp, read_fixed_string, opAdvance, opReq]
    split
    next h => simp [Except.map]; omega
    next h => simp [Except.map]; omega
  | skipN n =>
    simp only [runCursorOp, skip, opAdvance, opReq]
    split
    next h => simp [Except.map]; omega
    next h => simp [Except.map]; omega
  | nullTerm =>
    simp only [runCursorOp, read_null_terminated_string, opAdvance, opReq]
    rw [readNullGo_snd]
    have hd := List.length_drop s.position s.data
    simp [hd]
    intro hle
    omega

/-- Witness for `cursor_ops_safe` at concrete states: a failing u32 read
on a 3-byte buffer leaves the state unchanged; a successful u8 read
advances by its declared 1-byte consumption; the NUL-terminated read on
a zero-free 3-byte buffer ends within the buffer; and a 5-byte fixed
read of a 1-byte buffer fails with the end-of-data error. -/
theorem cursor_ops_safe_witness :
    (runCursorOp CursorOp.u32 ⟨[1, 2, 3], 0⟩).2 = (⟨[1, 2, 3], 0⟩ : FastEXRParser)
    ∧ (runCursorOp CursorOp.u8 ⟨[5, 6], 0⟩).2.position
        = 0 + opAdvance CursorOp.u8 ⟨[5, 6], 0⟩
    ∧ (runCursorOp CursorOp.nullTerm ⟨[1, 2, 3], 0⟩).2.position ≤ 3
    ∧ (runCursorOp (CursorOp.fixedStr 5) ⟨[1], 0⟩).1 = .error .endOfData :=
  ⟨(cursor_ops_safe CursorOp.u32 ⟨[1, 2, 3], 0⟩).2.2.1 .endOfData (by rfl),
   (cursor_ops_safe CursorOp.u8 ⟨[5, 6], 0⟩).2.1 (by rfl),
   (cursor_ops_safe CursorOp.nullTerm ⟨[1, 2, 3], 0⟩).2.2.2.2 (by decide),
   ((cursor_ops_safe (CursorOp.fixedStr 5) ⟨[1], 0⟩).2.2.2.1 5 rfl).mpr (by decide)⟩

/-
Part 4: lemmas about the pattern matchers and the classifier.
-/

theorem stripSuffixChar_eq_some {l r : List Nat} {c : Nat} :
    stripSuffixChar l c = some r ↔ l = r ++ [c] := by
  unfold stripSuffixChar
  constructor
  · intro h
    split at h
    next hl =>
      have hne : l ≠ [] := by
        intro he
        rw [he] at hl
        exact Option.noConfusion hl
      obtain rfl : l.dropLast = r := Option.some.inj h
      have hg := List.getLast?_eq_getLast l hne
      rw [hg] at hl
      obtain rfl : l.getLast hne = c := Option.some.inj hl
      exact (List.dropLast_append_getLast hne).symm
    next hl => exact Option.noConfusion h
  · rintro rfl
    rw [if_pos (List.getLast?_concat r), List.dropLast_concat]

theorem stripSuffixChar_eq_none {l : List Nat} {c : Nat} :
    stripSuffixChar l c = none ↔ ¬ ∃ r, l = r ++ [c] := by
  constructor
  · rintro h ⟨r, rfl⟩
    rw [stripSuffixChar_eq_some.mpr rfl] at h
    exact Option.noConfusion h
  · intro h
    cases hs : stripSuffixChar l c with
    | none => rfl
    | some r => exact absurd ⟨r, stripSuffixChar_eq_some.mp hs⟩ h

theorem stripPrefixChar_eq_some {l r : List Nat} {c : Nat} :
    stripPrefixChar l c = some r ↔ l = c :: r := by
  cases l with
  | nil => simp [stripPrefixChar]
  | cons x xs =>
    simp only [stripPrefixChar]
    by_cases hx : x = c
    · subst hx
      simp
    · simp [hx]

theorem stripPrefixChar_eq_none {l : List Nat} {c : Nat} :
    stripPrefixChar l c = none ↔ ¬ ∃ r, l = c :: r := by
  constructor
  · rintro h ⟨r, rfl⟩
    rw [stripPrefixChar_eq_some.mpr rfl] at h
    exact Option.noConfusion h
  · intro h
    cases hs : stripPrefixChar l c with
    | none => rfl
    | some r => exact absurd ⟨r, stripPrefixChar_eq_some.mp hs⟩ h

theorem starts_with_iff (pat : List Nat) :
    ∀ text, starts_with text pat = true ↔ ∃ r, pat ++ r = text := by
  induction pat with
  | nil =>
    intro text
    simp [starts_with]
  | cons a ps ih =>
    intro text
    cases text with
    | nil => simp [starts_with]
    | cons b ts =>
      simp only [starts_with, Bool.and_eq_true, beq_iff_eq]
      rw [ih ts]
      constructor
      · rintro ⟨rfl, r, rfl⟩
        exact ⟨r, rfl⟩
      · rintro ⟨r, hr⟩
        rw [List.cons_append] at hr
        obtain ⟨h1, h2⟩ := List.cons.inj hr
        exact ⟨h1, r, h2⟩

theorem ends_with_iff (text pat : List Nat) :
    ends_with text pat = true ↔ ∃ r, r ++ pat = text := by
  unfold ends_with
  rw [starts_with_iff]
  constructor
  · rintro ⟨r, hr⟩
    refine ⟨r.reverse, ?_⟩
    have h2 := congrArg List.reverse hr
    simpa using h2
  · rintro ⟨r, rfl⟩
    exact ⟨r.reverse, by simp⟩

/-- C7 amended: `matches_pattern` returns true exactly when the pattern
is "*"; or the pattern has the form P* and the text starts with P; or
the pattern has the form *S, does not also end with '*' (the
implementation gives the prefix rule precedence over the suffix rule),
and the text ends with S; or, for a pattern of none of these forms,
the text equals the pattern exactly.  (42 is '*'.) -/
theorem matches_pattern_characterization (text pattern : List Nat) :
    matches_pattern text pattern = true ↔
      (pattern = [42]
       ∨ (∃ p r, pattern = p ++ [42] ∧ p ++ r = text)
       ∨ ((¬ ∃ p, pattern = p ++ [42]) ∧ ∃ sfx r, pattern = 42 :: sfx ∧ r ++ sfx = text)
       ∨ ((¬ ∃ p, pattern = p ++ [42]) ∧ (¬ ∃ sfx, pattern = 42 :: sfx)
            ∧ text = pattern)) := by
  unfold matches_pattern
  by_cases hstar : pattern = [42]
  · simp [hstar]
  · rw [if_neg hstar]
    cases hss : stripSuffixChar pattern 42 with
    | some pp =>
      have hpp := stripSuffixChar_eq_some.mp hss
      dsimp only
      rw [starts_with_iff]
      constructor
      · rintro ⟨r, hr⟩
        exact Or.inr (Or.inl ⟨pp, r, hpp, hr⟩)
      · rintro (h1 | ⟨p, r, hp, hr⟩ | ⟨hno, -⟩ | ⟨hno, -, -⟩)
        · exact absurd h1 hstar
        · obtain rfl : p = pp := List.append_cancel_right (hp.symm.trans hpp)
          exact ⟨r, hr⟩
        · exact absurd ⟨pp, hpp⟩ hno
        · exact absurd ⟨pp, hpp⟩ hno
    | none =>
      have hns := stripSuffixChar_eq_none.mp hss
      cases hsp : stripPrefixChar pattern 42 with
      | some ss =>
        have hsp2 := stripPrefixChar_eq_some.mp hsp
        dsimp only
        rw [ends_with_iff]
        constructor
        · rintro ⟨r, hr⟩
          exact Or.inr (Or.inr (Or.inl ⟨hns, ss, r, hsp2, hr⟩))
        · rintro (h1 | ⟨p, r, hp, hr⟩ | ⟨-, sfx, r, hs, hr⟩ | ⟨-, hno, -⟩)
          · exact absurd h1 hstar
          · exact absurd ⟨p, hp⟩ hns
          · obtain rfl : sfx = ss := (List.cons.inj (hs.symm.trans hsp2)).2
            exact ⟨r, hr⟩
          · exact absurd ⟨ss, hsp2⟩ hno
      | none =>
        have hnp := stripPrefixChar_eq_none.mp hsp
        dsimp only
        rw [beq_iff_eq]
        constructor
        · intro h
          exact Or.inr (Or.inr (Or.inr ⟨hns, hnp, h⟩))
        · rintro (h1 | ⟨p, r, hp, hr⟩ | ⟨-, sfx, r, hs, hr⟩ | ⟨-, -, h⟩)
          · exact absurd h1 hstar
          · exact absurd ⟨p, hp⟩ hns
          · exact absurd ⟨sfx, hs⟩ hnp
          · exact h

/-- C7 counterexample: for the text "ax*" and the pattern "*x*", the
disjunctive pattern semantics of the specification holds through the
suffix clause (the text ends with "x*"), yet `matches_pattern` returns
false: because the pattern ends with '*', only the prefix rule is
tried, and "ax*" does not start with "*x". -/
theorem pattern_double_wildcard_cex :
    matches_pattern [97, 120, 42] [42, 120, 42] = false
      ∧ matchesPatternSpec [97, 120, 42] [42, 120, 42] :=
  ⟨by decide, Or.inr (Or.inr (Or.inl ⟨[120, 42], [97], rfl, rfl⟩))⟩

theorem starts_with_pointwise (pat : List Nat) :
    ∀ text, starts_with text pat = true ↔ ∀ j, j < pat.length → text[j]? = pat[j]? := by
  induction pat with
  | nil =>
    intro text
    simp [starts_with]
  | cons a ps ih =>
    intro text
    cases text with
    | nil =>
      simp only [starts_with]
      constructor
      · intro h
        exact absurd h (by simp)
      · intro h
        have h0 := h 0 (by simp)
        simp at h0
    | cons b ts =>
      simp only [starts_with, Bool.and_eq_true, beq_iff_eq]
      rw [ih ts]
      constructor
      · rintro ⟨rfl, hp⟩ j hj
        cases j with
        | zero => simp
        | succ j => simpa using hp j (by simpa using hj)
      · intro h
        refine ⟨?_, fun j hj => ?_⟩
        · have h0 := h 0 (by simp)
          simp at h0
          exact h0.symm
        · have hj1 := h (j + 1) (by simpa using hj)
          simpa using hj1

theorem seg_iff (xs ys : List Nat) (a n : Nat) :
    ((xs.drop a).take n = (ys.drop a).take n)
      ↔ ∀ j, j < n → xs[a + j]? = ys[a + j]? := by
  constructor
  · intro h j hj
    have h1 := congrArg (fun l => l[j]?) h
    simp only [List.getElem?_take, if_pos hj, List.getElem?_drop] at h1
    exact h1
  · intro h
    apply List.ext_getElem?
    intro j
    simp only [List.getElem?_take]
    by_cases hj : j < n
    · simp only [if_pos hj, List.getElem?_drop]
      exact h j hj
    · simp [if_neg hj]

theorem sse2_iff (text pat : List Nat) :
    matches_prefix_sse2 text pat = true
      ↔ ∀ j, j < pat.length → text[j]? = pat[j]? := by
  unfold matches_prefix_sse2
  simp only [Bool.and_eq_true, List.all_eq_true, List.mem_range, beq_iff_eq]
  constructor
  · rintro ⟨hA, hB⟩ j hj
    by_cases hi : j / 16 < pat.length / 16
    · have hseg := (seg_iff text pat (j / 16 * 16) 16).mp (hA (j / 16) hi)
      have := hseg (j % 16) (by omega)
      rw [show j / 16 * 16 + j % 16 = j from by omega] at this
      exact this
    · have hrem : 0 < pat.length % 16 := by omega
      rw [if_pos hrem] at hB
      have hB3 : (text.drop (pat.length / 16 * 16)).take (pat.length % 16)
          = pat.drop (pat.length / 16 * 16) := beq_iff_eq.mp hB
      have hB2 : (text.drop (pat.length / 16 * 16)).take (pat.length % 16)
          = (pat.drop (pat.length / 16 * 16)).take (pat.length % 16) := by
        rw [hB3]
        exact (List.take_of_length_le (by rw [List.length_drop]; omega)).symm
      have hseg := (seg_iff text pat (pat.length / 16 * 16) (pat.length % 16)).mp hB2
      have := hseg (j - pat.length / 16 * 16) (by omega)
      rw [show pat.length / 16 * 16 + (j - pat.length / 16 * 16) = j from by omega] at this
      exact this
  · intro h
    refine ⟨fun i hi => ?_, ?_⟩
    · apply (seg_iff text pat (i * 16) 16).mpr
      intro j hj
      exact h (i * 16 + j) (by omega)
    · by_cases hrem : 0 < pat.length % 16
      · rw [if_pos hrem]
        have hseg2 : ∀ j, j < pat.length % 16 →
            text[pat.length / 16 * 16 + j]? = pat[pat.length / 16 * 16 + j]? := by
          intro j hj
          exact h (pat.length / 16 * 16 + j) (by omega)
        have hB2 := (seg_iff text pat (pat.length / 16 * 16) (pat.length % 16)).mpr hseg2
        rw [beq_iff_eq, hB2]
        exact List.take_of_length_le (by rw [List.length_drop]; omega)
      · rw [if_neg hrem]

theorem matches_prefix_simd_eq (text pat : List Nat) :
    matches_prefix_simd text pat = starts_with text pat := by
  unfold matches_prefix_simd
  by_cases hl : text.length < pat.length
  · rw [if_pos hl]
    cases hs : starts_with text pat with
    | false => rfl
    | true =>
      exfalso
      obtain ⟨r, hr⟩ := (starts_with_iff pat text).mp hs
      have hlr := congrArg List.length hr
      simp at hlr
      omega
  · rw [if_neg hl]
    by_cases h16 : 16 ≤ pat.length
    · rw [if_pos h16]
      have h1 := sse2_iff text pat
      have h2 := starts_with_pointwise pat text
      cases hb : matches_prefix_sse2 text pat with
      | false =>
        cases hs : starts_with text pat with
        | false => rfl
        | true =>
          exfalso
          have := h1.mpr (h2.mp hs)
          rw [hb] at this
          exact Bool.noConfusion this
      | true =>
        exact (h2.mpr (h1.mp hb)).symm
    · rw [if_neg h16]

/-- C10: the scalar pattern matcher of src/main.rs and the SIMD-path
pattern matcher of src/simd_patterns.rs are extensionally equal: every
text and pattern give the same boolean, the SSE2 chunked prefix
comparison being equivalent to `starts_with` whenever it is reached. -/
theorem matches_pattern_simd_agrees (text pattern : List Nat) :
    matches_pattern text pattern = matches_pattern_simd text pattern := by
  unfold matches_pattern matches_pattern_simd
  by_cases hstar : pattern = [42]
  · simp [hstar]
  · rw [if_neg hstar, if_neg hstar]
    by_cases hnil : pattern = []
    · subst hnil
      rfl
    · rw [if_neg hnil]
      cases hss : stripSuffixChar pattern 42 with
      | some pp =>
        dsimp only
        exact (matches_prefix_simd_eq text pp).symm
      | none =>
        cases hsp : stripPrefixChar pattern 42 with
        | some ss => rfl
        | none => rfl

/-- C6: with the default configuration, `determine_channel_group` maps
"R" to "Base", "LightMix.blue" to "Light", "Background.red" to "Scene",
"ID0.red" to "Scene Objects", and "_walls.blue" to "Scene Objects". -/
theorem default_config_classification :
    determine_channel_group strR create_default_config = strBase
    ∧ determine_channel_group strLightMixBlue create_default_config = strLight
    ∧ determine_channel_group strBackgroundRed create_default_config = strScene
    ∧ determine_channel_group strID0Red create_default_config = strSceneObjects
    ∧ determine_channel_group strWallsBlue create_default_config = strSceneObjects := by
  decide

/-- C5 counterexample: with a configuration whose only group is flagged
`basic_rgb` but carries the display name "MyBase", classifying "R"
returns the interned constant "Base", not that group's configured
display name; and with no group flagged, classifying "R" returns the
interned constant "Basic RGB", not the configured fallback label "F". -/
theorem basic_rgb_display_name_cex :
    determine_channel_group strR cexConfigFlagged = strBase
    ∧ strBase ≠ [77, 121, 66, 97, 115, 101]
    ∧ determine_channel_group strR cexConfigUnflagged = strBasicRGB
    ∧ strBasicRGB ≠ [70] := by
  decide

/-- C5 amended: for every configuration and every channel name among
"R", "G", "B", "A", `determine_channel_group` returns the interned
cache constant "Base" when some configured group is flagged
`basic_rgb` (whichever group that is and whatever its display name),
and the interned constant "Basic RGB" otherwise (whatever the
configured fallback label): the configured values would be consulted
only if the intern cache lacked the key, which never happens. -/
theorem basic_rgb_interned_names (config : ChannelGroupConfig)
    (channel_name : List Nat) (h : channel_name ∈ [strR, strG, strB, strA]) :
    determine_channel_group channel_name config
      = if config.groups.any fun kv => kv.2.basic_rgb then strBase else strBasicRGB := by
  unfold determine_channel_group
  rw [if_pos (List.elem_iff.mpr h)]
  cases hf : config.groups.find? fun kv => kv.2.basic_rgb with
  | some kv =>
    have hp := @List.find?_some _ (fun kv => kv.2.basic_rgb) kv config.groups hf
    have hany : (config.groups.any fun kv => kv.2.basic_rgb) = true :=
      List.any_eq_true.mpr ⟨kv, List.mem_of_find?_eq_some hf, hp⟩
    rw [hany, if_pos rfl]
    rfl
  | none =>
    have hnone := List.find?_eq_none.mp hf
    have hany : (config.groups.any fun kv => kv.2.basic_rgb) = false :=
      List.any_eq_false.mpr hnone
    rw [hany]
    simp only [Bool.false_eq_true, if_false]
    rfl

/-- Witness for `basic_rgb_interned_names`: classifying "R" under the
default configuration, whose "base" group is flagged `basic_rgb`. -/
theorem basic_rgb_interned_names_witness :
    determine_channel_group strR create_default_config
      = if create_default_config.groups.any fun kv => kv.2.basic_rgb then strBase
        else strBasicRGB :=
  basic_rgb_interned_names create_default_config strR (by decide)
